import Mathlib

/- Verification of the pirate/ship/police simulation core (lib/evolution.py and
simulations/prova/parameters.py).  Two-dimensional numpy arrays are embedded as
lists of rows of rationals; numpy.gradient and scipy.signal.convolve2d are
embedded concretely with their documented discrete semantics.  The helper
modules pde.py, ode.py and save.py are not part of the sources and are
modelled from the spec where a claim needs them. -/

namespace Pirati

/-- Scalar field on the rectangular mesh: a 2d array, embedded as a list of
rows of rationals (row index = axis 0 = y, column index = axis 1 = x,
matching the numpy convention used by the source). -/
abbrev Grid := List (List ℚ)

/-- Shape of a 2d array: the list of row lengths (for a rectangular m×n array
this is `List.replicate m n`, carrying the same information as numpy's
shape tuple (m, n)). -/
def shapeOf (g : Grid) : List Nat := g.map List.length

/-- Entry access with out-of-range default 0. -/
def getCell (g : Grid) (i j : Nat) : ℚ := (g.getD i []).getD j 0

/-- Pointwise map over a grid (numpy elementwise unary operation). -/
def gMap (f : ℚ → ℚ) (g : Grid) : Grid := g.map (List.map f)

/-- Pointwise combination of two grids (numpy elementwise binary operation;
on equal shapes this is exactly the numpy semantics). -/
def gZip (f : ℚ → ℚ → ℚ) (a b : Grid) : Grid :=
  List.zipWith (List.zipWith f) a b

/-- Elementwise sum of two grids. -/
def gAdd : Grid → Grid → Grid := gZip (fun p q => p + q)

/-- Elementwise difference of two grids. -/
def gSub : Grid → Grid → Grid := gZip (fun p q => p - q)

/-- Elementwise product of two grids. -/
def gMul : Grid → Grid → Grid := gZip (fun p q => p * q)

/-- Elementwise negation of a grid. -/
def gNeg : Grid → Grid := gMap (fun q => -q)

/-- Multiplication of a grid by a scalar. -/
def smulG (c : ℚ) : Grid → Grid := gMap (fun q => c * q)

/-- Subtraction of a scalar from every entry (numpy `grid - c`). -/
def gSubS (g : Grid) (c : ℚ) : Grid := gMap (fun q => q - c) g

/-- Subtraction of a grid from a scalar (numpy `c - grid`). -/
def sSubG (c : ℚ) (g : Grid) : Grid := gMap (fun q => c - q) g

/-- Grid of zeros with the shape of the argument (numpy.zeros_like). -/
def zerosLike : Grid → Grid := gMap (fun _ => 0)

/-- Sum of all entries of a grid (numpy.sum). -/
def gSum (g : Grid) : ℚ := (g.map List.sum).sum

/-- Rectangular m×n grid with prescribed entries. -/
def gridOfFn (m n : Nat) (f : Nat → Nat → ℚ) : Grid :=
  (List.range m).map fun i => (List.range n).map fun j => f i j

/-- Number of columns of a rectangular grid (length of its first row). -/
def numCols (g : Grid) : Nat := (g.getD 0 []).length

/-- Predicate: every entry of the grid is 0. -/
def isZeroGrid (g : Grid) : Prop := ∀ r ∈ g, ∀ q ∈ r, q = 0

instance (g : Grid) : Decidable (isZeroGrid g) := by
  unfold isZeroGrid; infer_instance

/-- One-dimensional numpy.gradient along a list with spacing h: centered
differences in the interior, one-sided differences at the two ends. -/
def grad1 (h : ℚ) (v : List ℚ) : List ℚ :=
  (List.range v.length).map fun j =>
    if j = 0 then (v.getD 1 0 - v.getD 0 0) / h
    else if j = v.length - 1 then (v.getD j 0 - v.getD (j - 1) 0) / h
    else (v.getD (j + 1) 0 - v.getD (j - 1) 0) / (2 * h)

/-- numpy.gradient along axis 1 (columns, the x-direction) with spacing h. -/
def gradAxis1 (h : ℚ) (g : Grid) : Grid := g.map (grad1 h)

/-- numpy.gradient along axis 0 (rows, the y-direction) with spacing h:
centered differences in the interior, one-sided at the boundary rows. -/
def gradAxis0 (h : ℚ) (g : Grid) : Grid :=
  (List.range g.length).map fun i =>
    (List.range (g.getD i []).length).map fun j =>
      if i = 0 then (getCell g 1 j - getCell g 0 j) / h
      else if i = g.length - 1 then (getCell g i j - getCell g (i - 1) j) / h
      else (getCell g (i + 1) j - getCell g (i - 1) j) / (2 * h)

/-- numpy.gradient on a 2d array with spacings (h0, h1) for axes (0, 1):
returns the pair (derivative along axis 0, derivative along axis 1).  The
source calls `numpy.gradient(field, dy, dx)` and receives (d/dy, d/dx). -/
def numpyGradient (g : Grid) (h0 h1 : ℚ) : Grid × Grid :=
  (gradAxis0 h0 g, gradAxis1 h1 g)

/-- Entry of a grid at integer indices, 0 outside the index range (used to
express the full discrete convolution). -/
def cellZ (g : Grid) (i j : Int) : ℚ :=
  if 0 ≤ i ∧ 0 ≤ j then getCell g i.toNat j.toNat else 0

/-- Entry (I, J) of the full 2d discrete convolution of f with g:
sum over k, l of f[k, l] * g[I - k, J - l]. -/
def convFullAt (f g : Grid) (I J : Int) : ℚ :=
  ((List.range f.length).map fun k =>
    ((List.range (numCols f)).map fun l =>
      getCell f k l * cellZ g (I - (k : Int)) (J - (l : Int))).sum).sum

/-- scipy.signal.convolve2d with mode='same': the central part of the full
convolution, with the shape of the first argument; the centering offset on
each axis is (kernel extent - 1) / 2 rounded down. -/
def convolve2dSame (f g : Grid) : Grid :=
  gridOfFn f.length (numCols f) fun i j =>
    convFullAt f g ((i : Int) + (((g.length - 1) / 2 : Nat) : Int))
      ((j : Int) + (((numCols g - 1) / 2 : Nat) : Int))

/-- Modelled from the spec: pde.py is not under src.  One_step_parabolic
advances the pirate field by a single explicit forward-time update: the
precomputed flux-divergence term and the source term, scaled by dt, are
added to the current field (spec section 4.2).  The mesh and spacing
arguments are kept for signature fidelity with the call site. -/
def one_step_parabolic (p _xx _yy : Grid) (div source : Grid)
    (_dx _dy dt : ℚ) : Grid :=
  gAdd p (smulG dt (gAdd div source))

/-- Modelled from the spec: pde.py is not under src.  One_step_hyperbolic
advances the ship field by an explicit conservative update
new = old - dt * divergence(speed(old) * velocity * old), discretized with
an upwind bias chosen by the sign of each velocity component
(spec section 4.3); one-sided differences degenerate to 0 at the boundary. -/
def one_step_hyperbolic (s : Grid) (speed : Grid → Grid)
    (velx vely : Grid) (dx dy dt : ℚ) : Grid :=
  let Fx := gMul (gMul (speed s) velx) s
  let Fy := gMul (gMul (speed s) vely) s
  (List.range s.length).map fun i =>
    (List.range (s.getD i []).length).map fun j =>
      let dFx := if 0 ≤ getCell velx i j
        then (getCell Fx i j - getCell Fx i (j - 1)) / dx
        else (getCell Fx i (j + 1) - getCell Fx i j) / dx
      let dFy := if 0 ≤ getCell vely i j
        then (getCell Fy i j - getCell Fy (i - 1) j) / dy
        else (getCell Fy (i + 1) j - getCell Fy i j) / dy
      getCell s i j - dt * (dFx + dFy)

/-- Modelled from the spec: ode.py is not under src.  Ode.ode advances a
police position by explicit forward-Euler integration of the net force:
(x + dt*Fx, y + dt*Fy) (spec section 4.4). -/
def ode (Fx Fy : ℚ) (pos : ℚ × ℚ) (dt : ℚ) : ℚ × ℚ :=
  (pos.1 + dt * Fx, pos.2 + dt * Fy)

/-- Input record of one_step_evolution, one field per Python parameter.
The extra field sqrtFn models the external library function numpy.sqrt
(elementwise square root), which has no exact rational counterpart; no
claim depends on its values, only on where the source applies it. -/
structure EvoIn where
  p_density : Grid
  s_density : Grid
  police : List (ℚ × ℚ)
  xx : Grid
  yy : Grid
  p_kernel : Grid
  cut_off : Grid → Grid → Grid
  dx : ℚ
  dy : ℚ
  dt : ℚ
  kappa : Grid → Grid
  a : List ℚ
  velocity : Grid → Grid
  nu_x : Grid
  nu_y : Grid
  sqrtFn : ℚ → ℚ

/-- Line 62: p_convolution = dx * dy * convolve2d(s_density, p_kernel, 'same'). -/
def p_convolution (e : EvoIn) : Grid :=
  smulG (e.dx * e.dy) (convolve2dSame e.s_density e.p_kernel)

/-- Line 64: grad_py, grad_px = numpy.gradient(p_convolution, dy, dx);
the pair is (grad_py, grad_px). -/
def pirate_grads (e : EvoIn) : Grid × Grid :=
  numpyGradient (p_convolution e) e.dy e.dx

/-- Line 66: norm of the gradient, sqrt(grad_px**2 + grad_py**2). -/
def norm_grad_p_convolution (e : EvoIn) : Grid :=
  gMap e.sqrtFn
    (gAdd (gMul (pirate_grads e).2 (pirate_grads e).2)
          (gMul (pirate_grads e).1 (pirate_grads e).1))

/-- Line 67: flux_x = kappa(norm) * grad_px * p_density. -/
def flux_x (e : EvoIn) : Grid :=
  gMul (gMul (e.kappa (norm_grad_p_convolution e)) (pirate_grads e).2)
    e.p_density

/-- Line 68: flux_y = kappa(norm) * grad_py * p_density. -/
def flux_y (e : EvoIn) : Grid :=
  gMul (gMul (e.kappa (norm_grad_p_convolution e)) (pirate_grads e).1)
    e.p_density

/-- Lines 70-72: trash, div1 = gradient(flux_x, dy, dx);
div2, trash = gradient(flux_y, dy, dx); div = - div1 - div2.  From each
two-component gradient call one component is discarded. -/
def pirate_div (e : EvoIn) : Grid :=
  let div1 := (numpyGradient (flux_x e) e.dy e.dx).2
  let div2 := (numpyGradient (flux_y e) e.dy e.dx).1
  gSub (gNeg div1) div2

/-- Lines 76-78: f starts as zeros_like(xx) and accumulates, for every
police index i, a[i] * cut_off(xx - police[i][0], yy - police[i][1]). -/
def police_f (e : EvoIn) : Grid :=
  e.police.enum.foldl
    (fun acc ip =>
      gAdd acc (smulG (e.a.getD ip.1 0)
        (e.cut_off (gSubS e.xx ip.2.1) (gSubS e.yy ip.2.2))))
    (zerosLike e.xx)

/-- Line 81: p_new = pde.one_step_parabolic(p_density, xx, yy, div, -f,
dx, dy, dt). -/
def pirate_step (e : EvoIn) : Grid :=
  one_step_parabolic e.p_density e.xx e.yy (pirate_div e)
    (gNeg (police_f e)) e.dx e.dy e.dt

/-- Line 89: cal_I1_x = - dx * dy * convolve2d(p_density, xx * cut_off(xx, yy), 'same'). -/
def cal_I1_x (e : EvoIn) : Grid :=
  smulG (-(e.dx * e.dy))
    (convolve2dSame e.p_density (gMul e.xx (e.cut_off e.xx e.yy)))

/-- Line 90: cal_I1_y = - dx * dy * convolve2d(p_density, yy * cut_off(xx, yy), 'same'). -/
def cal_I1_y (e : EvoIn) : Grid :=
  smulG (-(e.dx * e.dy))
    (convolve2dSame e.p_density (gMul e.yy (e.cut_off e.xx e.yy)))

/-- Lines 92-96: cal_I2_x accumulates, over every police agent, the grid
cut_off(xx - police_x, yy - police_y) * (police_x - xx). -/
def cal_I2_x (e : EvoIn) : Grid :=
  e.police.foldl
    (fun acc p =>
      gAdd acc (gMul (e.cut_off (gSubS e.xx p.1) (gSubS e.yy p.2))
        (sSubG p.1 e.xx)))
    (zerosLike e.xx)

/-- Lines 93-96: cal_I2_y accumulates, over every police agent, the grid
cut_off(xx - police_x, yy - police_y) * (police_y - yy). -/
def cal_I2_y (e : EvoIn) : Grid :=
  e.police.foldl
    (fun acc p =>
      gAdd acc (gMul (e.cut_off (gSubS e.xx p.1) (gSubS e.yy p.2))
        (sSubG p.2 e.yy)))
    (zerosLike e.xx)

/-- Lines 98-100: cal_I_x = cal_I1_x + cal_I2_x; vel_x = cal_I_x + nu_x. -/
def vel_x (e : EvoIn) : Grid := gAdd (gAdd (cal_I1_x e) (cal_I2_x e)) e.nu_x

/-- Lines 99-101: cal_I_y = cal_I1_y + cal_I2_y; vel_y = cal_I_y + nu_y. -/
def vel_y (e : EvoIn) : Grid := gAdd (gAdd (cal_I1_y e) (cal_I2_y e)) e.nu_y

/-- Line 102: s_new = pde.one_step_hyperbolic(s_density, velocity, vel_x,
vel_y, dx, dy, dt). -/
def ship_step (e : EvoIn) : Grid :=
  one_step_hyperbolic e.s_density e.velocity (vel_x e) (vel_y e)
    e.dx e.dy e.dt

/-- Line 52: police_sum_x = sum of the x-coordinates of all police agents. -/
def police_sum_x (e : EvoIn) : ℚ := (e.police.map Prod.fst).sum

/-- Line 53: police_sum_y = sum of the y-coordinates of all police agents. -/
def police_sum_y (e : EvoIn) : ℚ := (e.police.map Prod.snd).sum

/-- Line 111: temp = cut_off(police_x - xx, police_y - yy) * p_density * s_density. -/
def police_temp (e : EvoIn) (pos : ℚ × ℚ) : Grid :=
  gMul (gMul (e.cut_off (sSubG pos.1 e.xx) (sSubG pos.2 e.yy)) e.p_density)
    e.s_density

/-- Line 112: F1_x = dx * dy * sum(temp * (xx - police_x)). -/
def F1_x (e : EvoIn) (pos : ℚ × ℚ) : ℚ :=
  e.dx * e.dy * gSum (gMul (police_temp e pos) (gSubS e.xx pos.1))

/-- Line 113: F1_y = dx * dy * sum(temp * (yy - police_y)). -/
def F1_y (e : EvoIn) (pos : ℚ × ℚ) : ℚ :=
  e.dx * e.dy * gSum (gMul (police_temp e pos) (gSubS e.yy pos.2))

/-- Line 118: F2_x = police_sum_x - M * police_x, with M the number of agents. -/
def F2_x (e : EvoIn) (pos : ℚ × ℚ) : ℚ :=
  police_sum_x e - (e.police.length : ℚ) * pos.1

/-- Line 119: F2_y = police_sum_y - M * police_y. -/
def F2_y (e : EvoIn) (pos : ℚ × ℚ) : ℚ :=
  police_sum_y e - (e.police.length : ℚ) * pos.2

/-- Lines 109-124: each new police position is ode(F1 + F2 + F3, position,
dt), where the control term F3 is the literal constant 0 (lines 121-122). -/
def police_step (e : EvoIn) : List (ℚ × ℚ) :=
  e.police.map fun pos =>
    ode (F1_x e pos + F2_x e pos + 0) (F1_y e pos + F2_y e pos + 0)
      pos e.dt

/-- Lines 45-49: the shape assertions of one_step_evolution (the yy check is
duplicated in the source; the duplicate is logically redundant). -/
def shape_checks (e : EvoIn) : Bool :=
  shapeOf e.p_density == shapeOf e.s_density &&
  shapeOf e.p_density == shapeOf e.xx &&
  shapeOf e.p_density == shapeOf e.yy

/-- Lines 12-128: one_step_evolution.  A failed shape assertion raises
AssertionError and an index a[i] beyond the end of the coefficient list
raises IndexError (line 78, reached for every i < len(police)); both are
modelled as `none`.  Otherwise the function returns the triple
(p_new, s_new, police_new). -/
def one_step_evolution (e : EvoIn) : Option (Grid × Grid × List (ℚ × ℚ)) :=
  if shape_checks e then
    if e.police.length ≤ e.a.length then
      some (pirate_step e, ship_step e, police_step e)
    else none
  else none

/-- Simulation object of the driver (the `pirates` class instance): the
fields read by evolution() in lib/evolution.py.  The functional fields are
the configuration-supplied callables; sqrtFn again stands for numpy.sqrt. -/
structure Pirates where
  initial_density_pirates : Grid
  initial_density_ships : Grid
  police_initial_positions : List (ℚ × ℚ)
  x_mesh : Grid
  y_mesh : Grid
  kernel_mathcal_K : Grid
  cut_off_C : Grid → Grid → Grid
  dx : ℚ
  dy : ℚ
  dt : ℚ
  kappa : Grid → Grid
  a : List ℚ
  ships_speed : Grid → Grid
  x : List ℚ
  y : List ℚ
  ships_direction : List ℚ → List ℚ → Grid × Grid
  time : List ℚ
  printing : List Bool
  sqrtFn : ℚ → ℚ

/-- Modelled from the spec: save.py is not under src.  The persistence
collaborator receives (snapshot number, simulation time, pirate field,
ship field, police positions); it is recorded as an event rather than
written to disk. -/
structure SaveEvent where
  number : Nat
  t : ℚ
  p : Grid
  s : Grid
  police : List (ℚ × ℚ)

/-- State threaded through the driver loop of evolution(): the current
(p_density, s_density, police) triple, the snapshot events emitted so far
(most recent first), the print_number counter, and the number of one-step
evolutions performed. -/
structure LoopState where
  state : Grid × Grid × List (ℚ × ℚ)
  saves : List SaveEvent
  printNumber : Nat
  steps : Nat

/-- Outcome of a completed evolution() call: the snapshot events, the
number of one-step evolutions performed, and the Python return value of
the function (there is no return statement, hence None). -/
structure EvolutionRun where
  saves : List SaveEvent
  steps : Nat
  retVal : Option (Grid × Grid × List (ℚ × ℚ))

/-- Lines 160-161: the argument record of the one_step_evolution call made
by the driver for the current state triple. -/
def mkEvoIn (pir : Pirates) (st : Grid × Grid × List (ℚ × ℚ)) : EvoIn :=
  ⟨st.1, st.2.1, st.2.2, pir.x_mesh, pir.y_mesh, pir.kernel_mathcal_K,
    pir.cut_off_C, pir.dx, pir.dy, pir.dt, pir.kappa, pir.a,
    pir.ships_speed, (pir.ships_direction pir.x pir.y).1,
    (pir.ships_direction pir.x pir.y).2, pir.sqrtFn⟩

/-- Body of the driver loop (lines 157-168) for one index i: advance the
state by one_step_evolution, then, when printing[i] holds, emit a snapshot
named by print_number and increment print_number.  A failing step aborts
the run (`none`). -/
def evoStep (pir : Pirates) (acc : Option LoopState) (i : Nat) :
    Option LoopState :=
  acc.bind fun st =>
    (one_step_evolution (mkEvoIn pir st.state)).map fun newSt =>
      if pir.printing.getD i false then
        ⟨newSt, ⟨st.printNumber, pir.time.getD i 0, newSt.1, newSt.2.1,
          newSt.2.2⟩ :: st.saves, st.printNumber + 1, st.steps + 1⟩
      else ⟨newSt, st.saves, st.printNumber, st.steps + 1⟩

/-- Lines 138-171: evolution(pirates).  The loop runs over
xrange(1, len(time)); print_number starts at 1; the function body ends
without a return statement, so the Python return value is None
(retVal := none), even though the final state triple was computed. -/
def evolution (pir : Pirates) : Option EvolutionRun :=
  ((List.range' 1 (pir.time.length - 1)).foldl (evoStep pir)
      (some ⟨(pir.initial_density_pirates, pir.initial_density_ships,
        pir.police_initial_positions), [], 1, 0⟩)).map
    fun st => ⟨st.saves.reverse, st.steps, none⟩

/-- Lines 111-120 of simulations/prova/parameters.py: the unnormalized
cut-off field k(x, y) = (x² + y² < radius²) * (radius² - x² - y²),
evaluated elementwise on the two mesh arrays. -/
def cut_off_k (x y : Grid) (radius : ℚ) : Grid :=
  gZip (fun p q => if p ^ 2 + q ^ 2 < radius ^ 2
    then radius ^ 2 - p ^ 2 - q ^ 2 else 0) x y

/-- Line 115: the normalization constant C = sum(k) * (x[0][1] - x[0][0])
* (y[1][0] - y[0][0]). -/
def cut_off_norm (x y : Grid) (radius : ℚ) : ℚ :=
  gSum (cut_off_k x y radius) * (getCell x 0 1 - getCell x 0 0) *
    (getCell y 1 0 - getCell y 0 0)

/-- Lines 111-120: cut_off_C returns the raw field k when C < 0.3 and the
normalized field k/C otherwise (the Python default radius is 0.4, passed
here explicitly). -/
def cut_off_C (x y : Grid) (radius : ℚ) : Grid :=
  if cut_off_norm x y radius < 3 / 10 then cut_off_k x y radius
  else gMap (fun q => q / cut_off_norm x y radius) (cut_off_k x y radius)

/-- Spec-side formulation of the police source accumulator (spec section 4.1
step 3): the per-agent contribution fields a[i] * cutoff(mesh - agent_i),
listed first and then summed onto the zero field. -/
def police_f_spec (e : EvoIn) : Grid :=
  (e.police.enum.map fun ip =>
    smulG (e.a.getD ip.1 0)
      (e.cut_off (gSubS e.xx ip.2.1) (gSubS e.yy ip.2.2))).foldl gAdd
    (zerosLike e.xx)

/-- Spec-side formulation of the police contribution to the ship velocity
(x-coordinate): the per-agent fields cutoff(mesh - agent) * (agent_x - mesh_x),
listed first and then summed onto the zero field. -/
def cal_I2_x_spec (e : EvoIn) : Grid :=
  (e.police.map fun p =>
    gMul (e.cut_off (gSubS e.xx p.1) (gSubS e.yy p.2)) (sSubG p.1 e.xx)).foldl
    gAdd (zerosLike e.xx)

/-- Spec-side formulation of the police contribution to the ship velocity
(y-coordinate). -/
def cal_I2_y_spec (e : EvoIn) : Grid :=
  (e.police.map fun p =>
    gMul (e.cut_off (gSubS e.xx p.1) (gSubS e.yy p.2)) (sSubG p.2 e.yy)).foldl
    gAdd (zerosLike e.xx)

/-- Spec-side formulation of the ship velocity (x-coordinate): the sum of
the three terms named by the spec — convolution contribution, police
contribution, geometric drift. -/
def vel_x_spec (e : EvoIn) : Grid :=
  gAdd (cal_I1_x e) (gAdd (cal_I2_x_spec e) e.nu_x)

/-- Spec-side formulation of the ship velocity (y-coordinate). -/
def vel_y_spec (e : EvoIn) : Grid :=
  gAdd (cal_I1_y e) (gAdd (cal_I2_y_spec e) e.nu_y)

/-- The input record with the coefficient list truncated to the number of
police agents (used to state that surplus coefficients are ignored). -/
def truncA (e : EvoIn) : EvoIn :=
  ⟨e.p_density, e.s_density, e.police, e.xx, e.yy, e.p_kernel, e.cut_off,
    e.dx, e.dy, e.dt, e.kappa, e.a.take e.police.length, e.velocity,
    e.nu_x, e.nu_y, e.sqrtFn⟩

/-- The input record with the pirate field replaced (used to state that the
ship update reads the pre-step pirate field, not the freshly computed one). -/
def withP (e : EvoIn) (p : Grid) : EvoIn :=
  ⟨p, e.s_density, e.police, e.xx, e.yy, e.p_kernel, e.cut_off,
    e.dx, e.dy, e.dt, e.kappa, e.a, e.velocity, e.nu_x, e.nu_y, e.sqrtFn⟩

/-- Concrete 2×2 test grid. -/
def g22 : Grid := [[0, 1], [2, 3]]

/-- Concrete 2×2 zero grid. -/
def z22 : Grid := [[0, 0], [0, 0]]

/-- Concrete cut-off callable for tests: the first mesh argument. -/
def exCut : Grid → Grid → Grid := fun u _ => u

/-- Concrete kappa callable for tests: the identity. -/
def exKappa : Grid → Grid := fun g => g

/-- Concrete ship-speed callable for tests: the identity. -/
def exVel : Grid → Grid := fun g => g

/-- Concrete stand-in for numpy.sqrt in tests: the identity. -/
def exSqrt : ℚ → ℚ := fun q => q

/-- Concrete input whose coefficient list is longer than the police list
(two coefficients, one agent) while all shape checks pass. -/
def eC2 : EvoIn :=
  ⟨g22, g22, [(0, 0)], g22, g22, g22, exCut, 1, 1, 1, exKappa, [0, 0],
    exVel, g22, g22, exSqrt⟩

/-- Concrete input with two police agents and all coefficients zero. -/
def eC3 : EvoIn :=
  ⟨g22, g22, [(0, 0), (1, 1)], g22, g22, g22, exCut, 1, 1, 1, exKappa,
    [0, 0], exVel, g22, g22, exSqrt⟩

/-- Concrete input with a single police agent and an all-zero pirate field. -/
def eC5 : EvoIn :=
  ⟨z22, g22, [(1, 2)], g22, g22, g22, exCut, 1, 1, 1, exKappa, [5],
    exVel, g22, g22, exSqrt⟩

/-- Concrete valid input on a 2×2 mesh with one police agent. -/
def eC7 : EvoIn :=
  ⟨g22, g22, [(0, 0)], g22, g22, g22, exCut, 1, 1, 1, exKappa, [1],
    exVel, g22, g22, exSqrt⟩

/-- Concrete 1×1 input (no police agents) used to show that the ship
velocity is sensitive to which pirate field it reads. -/
def eC8 : EvoIn :=
  ⟨[[1]], [[1]], [], [[1]], [[1]], [[1]], exCut, 1, 1, 1, exKappa, [],
    exVel, [[0]], [[0]], exSqrt⟩

/-- Concrete 2×2 x-mesh with unit spacing. -/
def X10 : Grid := [[0, 1], [0, 1]]

/-- Concrete 2×2 y-mesh with unit spacing. -/
def Y10 : Grid := [[0, 0], [1, 1]]

/-- Concrete simulation object whose time schedule has a single instant,
so the driver loop body never runs. -/
def pir9 : Pirates :=
  ⟨g22, g22, [(0, 0)], g22, g22, g22, exCut, 1, 1, 1, exKappa, [1],
    exVel, [0, 1], [0, 1], fun _ _ => (g22, g22), [0], [false], exSqrt⟩

/-- The outcome of evolution on pir9: no snapshots, zero steps, None. -/
def run9 : EvolutionRun := ⟨[], 0, none⟩

/-- Mapping over the index range of a list via getD is mapping over the list. -/
theorem map_range_getD {α β : Type} (d : α) (f : α → β) :
    ∀ l : List α,
      (List.range l.length).map (fun i => f (l.getD i d)) = l.map f := by
  intro l
  induction l with
  | nil => rfl
  | cons x xs ih =>
      simp only [List.length_cons, List.range_succ_eq_map, List.map_cons,
        List.map_map, Function.comp, List.getD_cons_zero, List.getD_cons_succ]
      exact congrArg (f x :: ·) ih

/-- Pointwise unary operations preserve the shape. -/
theorem shapeOf_gMap (f : ℚ → ℚ) (g : Grid) : shapeOf (gMap f g) = shapeOf g := by
  simp [shapeOf, gMap, List.map_map, Function.comp]

/-- Pointwise binary operations preserve the common shape. -/
theorem shapeOf_gZip (f : ℚ → ℚ → ℚ) :
    ∀ a b : Grid, shapeOf a = shapeOf b → shapeOf (gZip f a b) = shapeOf a := by
  intro a
  induction a with
  | nil => intro b _; rfl
  | cons r rs ih =>
      intro b h
      cases b with
      | nil => simp [shapeOf] at h
      | cons s bs =>
          simp only [shapeOf, List.map_cons, List.cons.injEq] at h
          simp only [gZip, List.zipWith_cons_cons, shapeOf, List.map_cons,
            List.cons.injEq]
          refine ⟨by rw [List.length_zipWith, h.1, min_self], ?_⟩
          have := ih bs (by simpa [shapeOf] using h.2)
          simpa [gZip, shapeOf] using this

theorem shapeOf_gAdd (a b : Grid) (h : shapeOf a = shapeOf b) :
    shapeOf (gAdd a b) = shapeOf a := shapeOf_gZip _ a b h

theorem shapeOf_gSub (a b : Grid) (h : shapeOf a = shapeOf b) :
    shapeOf (gSub a b) = shapeOf a := shapeOf_gZip _ a b h

theorem shapeOf_gMul (a b : Grid) (h : shapeOf a = shapeOf b) :
    shapeOf (gMul a b) = shapeOf a := shapeOf_gZip _ a b h

theorem shapeOf_gNeg (a : Grid) : shapeOf (gNeg a) = shapeOf a :=
  shapeOf_gMap _ a

theorem shapeOf_smulG (c : ℚ) (a : Grid) : shapeOf (smulG c a) = shapeOf a :=
  shapeOf_gMap _ a

theorem shapeOf_gSubS (a : Grid) (c : ℚ) : shapeOf (gSubS a c) = shapeOf a :=
  shapeOf_gMap _ a

theorem shapeOf_sSubG (c : ℚ) (a : Grid) : shapeOf (sSubG c a) = shapeOf a :=
  shapeOf_gMap _ a

theorem shapeOf_zerosLike (a : Grid) : shapeOf (zerosLike a) = shapeOf a :=
  shapeOf_gMap _ a

/-- Shape of a generated rectangular grid. -/
theorem shapeOf_gridOfFn (m n : Nat) (f : Nat → Nat → ℚ) :
    shapeOf (gridOfFn m n f) = List.replicate m n := by
  simp only [shapeOf, gridOfFn, List.map_map, Function.comp, List.length_map]
  exact (List.eq_replicate_iff).2 ⟨by simp, by simp⟩

/-- The 1d gradient has the length of its input. -/
theorem length_grad1 (h : ℚ) (v : List ℚ) : (grad1 h v).length = v.length := by
  simp [grad1]

/-- The axis-1 gradient preserves the shape. -/
theorem shapeOf_gradAxis1 (h : ℚ) (g : Grid) :
    shapeOf (gradAxis1 h g) = shapeOf g := by
  unfold shapeOf gradAxis1
  rw [List.map_map]
  exact List.map_congr_left fun r _ => length_grad1 h r

/-- The axis-0 gradient preserves the shape. -/
theorem shapeOf_gradAxis0 (h : ℚ) (g : Grid) :
    shapeOf (gradAxis0 h g) = shapeOf g := by
  unfold shapeOf gradAxis0
  rw [List.map_map]
  have hrange := map_range_getD ([] : List ℚ) List.length g
  calc (List.range g.length).map _
      = (List.range g.length).map (fun i => (g.getD i []).length) := by
        apply List.map_congr_left
        intro i _
        simp [Function.comp]
    _ = g.map List.length := hrange

/-- The spec-modelled hyperbolic stepper preserves the shape of the field. -/
theorem shapeOf_one_step_hyperbolic (s : Grid) (speed : Grid → Grid)
    (velx vely : Grid) (dx dy dt : ℚ) :
    shapeOf (one_step_hyperbolic s speed velx vely dx dy dt) = shapeOf s := by
  unfold shapeOf one_step_hyperbolic
  rw [List.map_map]
  have hrange := map_range_getD ([] : List ℚ) List.length s
  calc (List.range s.length).map _
      = (List.range s.length).map (fun i => (s.getD i []).length) := by
        apply List.map_congr_left
        intro i _
        simp [Function.comp]
    _ = s.map List.length := hrange

/-- Shape of a same-mode convolution whose first input is rectangular. -/
theorem shapeOf_convolve2dSame (f g : Grid) (m n : Nat)
    (hf : shapeOf f = List.replicate m n) :
    shapeOf (convolve2dSame f g) = List.replicate m n := by
  have hm : f.length = m := by
    have := congrArg List.length hf
    simpa [shapeOf] using this
  cases f with
  | nil =>
      simp only [List.length_nil] at hm
      subst hm
      simpa [convolve2dSame, gridOfFn] using hf
  | cons r rs =>
      have hn : numCols (r :: rs) = n := by
        have hm' : m = rs.length + 1 := by simpa using hm.symm
        subst hm'
        simp only [shapeOf, List.map_cons, List.replicate_succ,
          List.cons.injEq] at hf
        simpa [numCols] using hf.1
      rw [show convolve2dSame (r :: rs) g =
          gridOfFn (r :: rs).length (numCols (r :: rs)) _ from rfl,
        shapeOf_gridOfFn, hm, hn]

/-- Folding grid additions of equally shaped grids preserves the shape. -/
theorem shapeOf_foldl_gAdd {α : Type} (h : α → Grid) (R : List Nat) :
    ∀ (l : List α) (acc : Grid), shapeOf acc = R →
      (∀ x ∈ l, shapeOf (h x) = R) →
      shapeOf (l.foldl (fun g x => gAdd g (h x)) acc) = R := by
  intro l
  induction l with
  | nil => intro acc hacc _; exact hacc
  | cons x xs ih =>
      intro acc hacc hall
      simp only [List.foldl_cons]
      refine ih _ ?_ (fun y hy => hall y (by simp [hy]))
      rw [shapeOf_gAdd acc (h x) (by rw [hacc, hall x (by simp)])]
      exact hacc

/-- Rowwise form of the identity -a - b = -(a + b). -/
theorem zipWith_sub_neg (r : List ℚ) :
    ∀ s : List ℚ,
      List.zipWith (fun p q => p - q) (r.map (fun q => -q)) s =
        (List.zipWith (fun p q => p + q) r s).map (fun q => -q) := by
  induction r with
  | nil => intro s; rfl
  | cons x xs ih =>
      intro s
      cases s with
      | nil => rfl
      | cons y ys =>
          simp only [List.map_cons, List.zipWith_cons_cons, ih,
        List.cons.injEq, and_true]
          ring

/-- The source computes -div1 - div2; this equals -(div1 + div2). -/
theorem gSub_gNeg (a : Grid) : ∀ b : Grid, gSub (gNeg a) b = gNeg (gAdd a b) := by
  induction a with
  | nil => intro b; rfl
  | cons r rs ih =>
      intro b
      cases b with
      | nil => rfl
      | cons s bs =>
          simp only [gSub, gNeg, gAdd, gZip, gMap, List.map_cons,
            List.zipWith_cons_cons, List.cons.injEq]
          exact ⟨zipWith_sub_neg r s, by simpa [gSub, gNeg, gAdd, gZip, gMap] using ih bs⟩

/-- Rowwise associativity of elementwise addition (with truncation). -/
theorem zipWith_add_assoc (r : List ℚ) :
    ∀ s t : List ℚ,
      List.zipWith (fun p q => p + q) (List.zipWith (fun p q => p + q) r s) t =
        List.zipWith (fun p q => p + q) r (List.zipWith (fun p q => p + q) s t) := by
  induction r with
  | nil => intro s t; rfl
  | cons x xs ih =>
      intro s t
      cases s with
      | nil => rfl
      | cons y ys =>
          cases t with
          | nil => rfl
          | cons z zs =>
              simp only [List.zipWith_cons_cons, ih, List.cons.injEq, and_true]
              ring

/-- Associativity of grid addition (with truncation). -/
theorem gAdd_assoc (a : Grid) :
    ∀ b c : Grid, gAdd (gAdd a b) c = gAdd a (gAdd b c) := by
  induction a with
  | nil => intro b c; rfl
  | cons r rs ih =>
      intro b c
      cases b with
      | nil => rfl
      | cons s bs =>
          cases c with
          | nil => rfl
          | cons t cs =>
              simp only [gAdd, gZip, List.zipWith_cons_cons, List.cons.injEq]
              exact ⟨zipWith_add_assoc r s t, by simpa [gAdd, gZip] using ih bs cs⟩

/-- Rowwise zero propagation through a binary operation absorbing on the left. -/
theorem row_zero_zipWith_left (f : ℚ → ℚ → ℚ) (hf : ∀ y, f 0 y = 0) :
    ∀ (r s : List ℚ), (∀ q ∈ r, q = 0) → ∀ q ∈ List.zipWith f r s, q = 0 := by
  intro r
  induction r with
  | nil => intro s _ q hq; simp at hq
  | cons x xs ih =>
      intro s hr q hq
      cases s with
      | nil => simp at hq
      | cons y ys =>
          simp only [List.zipWith_cons_cons, List.mem_cons] at hq
          rcases hq with hq | hq
          · rw [hq, hr x (by simp), hf]
          · exact ih ys (fun q2 hq2 => hr q2 (by simp [hq2])) q hq

/-- Rowwise zero propagation through a binary operation absorbing on the right. -/
theorem row_zero_zipWith_right (f : ℚ → ℚ → ℚ) (hf : ∀ x, f x 0 = 0) :
    ∀ (r s : List ℚ), (∀ q ∈ s, q = 0) → ∀ q ∈ List.zipWith f r s, q = 0 := by
  intro r
  induction r with
  | nil => intro s _ q hq; simp at hq
  | cons x xs ih =>
      intro s hs q hq
      cases s with
      | nil => simp at hq
      | cons y ys =>
          simp only [List.zipWith_cons_cons, List.mem_cons] at hq
          rcases hq with hq | hq
          · rw [hq, hs y (by simp), hf]
          · exact ih ys (fun q2 hq2 => hs q2 (by simp [hq2])) q hq

/-- A pointwise product with an all-zero left factor is all-zero. -/
theorem isZero_gMul_left (a : Grid) :
    ∀ b : Grid, isZeroGrid a → isZeroGrid (gMul a b) := by
  induction a with
  | nil => intro b _ row hrow; simp [gMul, gZip] at hrow
  | cons r rs ih =>
      intro b ha row hrow
      cases b with
      | nil => simp [gMul, gZip] at hrow
      | cons s bs =>
          simp only [gMul, gZip, List.zipWith_cons_cons, List.mem_cons] at hrow
          rcases hrow with hrow | hrow
          · subst hrow
            exact row_zero_zipWith_left _ (fun y => zero_mul y) r s
              (ha r (by simp))
          · exact ih bs (fun r2 h2 => ha r2 (by simp [h2])) row hrow

/-- A pointwise product with an all-zero right factor is all-zero. -/
theorem isZero_gMul_right (a : Grid) :
    ∀ b : Grid, isZeroGrid b → isZeroGrid (gMul a b) := by
  induction a with
  | nil => intro b _ row hrow; simp [gMul, gZip] at hrow
  | cons r rs ih =>
      intro b hb row hrow
      cases b with
      | nil => simp [gMul, gZip] at hrow
      | cons s bs =>
          simp only [gMul, gZip, List.zipWith_cons_cons, List.mem_cons] at hrow
          rcases hrow with hrow | hrow
          · subst hrow
            exact row_zero_zipWith_right _ (fun x => mul_zero x) r s
              (hb s (by simp))
          · exact ih bs (fun r2 h2 => hb r2 (by simp [h2])) row hrow

/-- Rowwise zero propagation through elementwise addition of two zero rows. -/
theorem row_zero_zipWith_add (r : List ℚ) :
    ∀ s : List ℚ, (∀ q ∈ r, q = 0) → (∀ q ∈ s, q = 0) →
      ∀ q ∈ List.zipWith (fun p q => p + q) r s, q = 0 := by
  induction r with
  | nil => intro s _ _ q hq; simp at hq
  | cons x xs ih =>
      intro s hr hs q hq
      cases s with
      | nil => simp at hq
      | cons y ys =>
          simp only [List.zipWith_cons_cons, List.mem_cons] at hq
          rcases hq with hq | hq
          · rw [hq, hr x (by simp), hs y (by simp), add_zero]
          · exact ih ys (fun q2 h2 => hr q2 (by simp [h2]))
              (fun q2 h2 => hs q2 (by simp [h2])) q hq

/-- The sum of two all-zero grids is all-zero. -/
theorem isZero_gAdd (a : Grid) :
    ∀ b : Grid, isZeroGrid a → isZeroGrid b → isZeroGrid (gAdd a b) := by
  induction a with
  | nil => intro b _ _ row hrow; simp [gAdd, gZip] at hrow
  | cons r rs ih =>
      intro b ha hb row hrow
      cases b with
      | nil => simp [gAdd, gZip] at hrow
      | cons s bs =>
          simp only [gAdd, gZip, List.zipWith_cons_cons, List.mem_cons] at hrow
          rcases hrow with hrow | hrow
          · subst hrow
            exact row_zero_zipWith_add r s (ha r (by simp)) (hb s (by simp))
          · exact ih bs (fun r2 h2 => ha r2 (by simp [h2]))
              (fun r2 h2 => hb r2 (by simp [h2])) row hrow

/-- Scaling any grid by the scalar 0 yields an all-zero grid. -/
theorem isZero_smulG_zero (g : Grid) : isZeroGrid (smulG 0 g) := by
  intro row hrow q hq
  simp only [smulG, gMap, List.mem_map] at hrow
  obtain ⟨r0, _, rfl⟩ := hrow
  simp only [List.mem_map] at hq
  obtain ⟨q0, _, rfl⟩ := hq
  exact zero_mul q0

/-- Zeros_like yields an all-zero grid. -/
theorem isZero_zerosLike (g : Grid) : isZeroGrid (zerosLike g) := by
  intro row hrow q hq
  simp only [zerosLike, gMap, List.mem_map] at hrow
  obtain ⟨r0, _, rfl⟩ := hrow
  simp only [List.mem_map] at hq
  obtain ⟨q0, _, rfl⟩ := hq
  rfl

/-- Negation of an all-zero grid is all-zero. -/
theorem isZero_gNeg (g : Grid) (hg : isZeroGrid g) : isZeroGrid (gNeg g) := by
  intro row hrow q hq
  simp only [gNeg, gMap, List.mem_map] at hrow
  obtain ⟨r0, hr0, rfl⟩ := hrow
  simp only [List.mem_map] at hq
  obtain ⟨q0, hq0, rfl⟩ := hq
  rw [hg r0 hr0 q0 hq0, neg_zero]

/-- The total sum of an all-zero grid is 0. -/
theorem gSum_isZero (g : Grid) (hg : isZeroGrid g) : gSum g = 0 := by
  unfold gSum
  apply List.sum_eq_zero
  intro s hs
  simp only [List.mem_map] at hs
  obtain ⟨r, hr, rfl⟩ := hs
  exact List.sum_eq_zero (hg r hr)

/-- Folding grid additions of all-zero grids onto an all-zero accumulator
yields an all-zero grid. -/
theorem isZero_foldl_gAdd {α : Type} (h : α → Grid) :
    ∀ (l : List α) (acc : Grid), isZeroGrid acc →
      (∀ x ∈ l, isZeroGrid (h x)) →
      isZeroGrid (l.foldl (fun g x => gAdd g (h x)) acc) := by
  intro l
  induction l with
  | nil => intro acc hacc _; exact hacc
  | cons x xs ih =>
      intro acc hacc hall
      simp only [List.foldl_cons]
      exact ih _ (isZero_gAdd acc (h x) hacc (hall x (by simp)))
        (fun y hy => hall y (by simp [hy]))

/-- Indices appearing in enumFrom n l are below n + length l. -/
theorem fst_lt_of_mem_enumFrom {α : Type} :
    ∀ (l : List α) (n : Nat) (p : Nat × α),
      p ∈ l.enumFrom n → p.1 < n + l.length := by
  intro l
  induction l with
  | nil => intro n p hp; simp [List.enumFrom] at hp
  | cons x xs ih =>
      intro n p hp
      simp only [List.enumFrom, List.mem_cons] at hp
      rcases hp with rfl | hp
      · simp
      · have := ih (n + 1) p hp
        simp only [List.length_cons]
        omega

/-- Reading inside the truncated part of a list agrees with the full list. -/
theorem getD_take {α : Type} (d : α) :
    ∀ (l : List α) (M i : Nat), i < M → (l.take M).getD i d = l.getD i d := by
  intro l
  induction l with
  | nil => intro M i _; simp
  | cons x xs ih =>
      intro M i hi
      cases M with
      | zero => omega
      | succ M =>
          cases i with
          | zero => simp
          | succ i => simpa using ih M i (by omega)

/-- Folds of functions that agree on the list members agree. -/
theorem foldl_congr_mem {α β : Type} (f g : β → α → β) :
    ∀ l : List α, (∀ b x, x ∈ l → f b x = g b x) →
      ∀ acc : β, l.foldl f acc = l.foldl g acc := by
  intro l
  induction l with
  | nil => intro _ acc; rfl
  | cons x xs ih =>
      intro h acc
      simp only [List.foldl_cons]
      rw [h acc x (by simp)]
      exact ih (fun b y hy => h b y (by simp [hy])) _

/-- C1: the divergence of the pirate flux is the sum of the axis-1 partial
derivative of flux_x and the axis-0 partial derivative of flux_y, each the
retained component of a separate two-component centered-gradient call with
spacings (dy, dx), and the sum is negated to form the diffusion-like term
that is passed to the parabolic stepper. -/
theorem pirate_div_eq_neg_divergence (e : EvoIn) :
    pirate_div e =
      gNeg (gAdd (gradAxis1 e.dx (flux_x e)) (gradAxis0 e.dy (flux_y e))) ∧
    pirate_step e = one_step_parabolic e.p_density e.xx e.yy (pirate_div e)
      (gNeg (police_f e)) e.dx e.dy e.dt :=
  ⟨gSub_gNeg _ _, rfl⟩

/-- C6: the police-position stepper is exact forward Euler,
(x + dt*Fx, y + dt*Fy); at F = (2, -1), position (3, 4), dt = 1/10 it
returns (16/5, 39/10), that is (3.2, 3.9). -/
theorem ode_forward_euler :
    (∀ (Fx Fy : ℚ) (pos : ℚ × ℚ) (dt : ℚ),
      ode Fx Fy pos dt = (pos.1 + dt * Fx, pos.2 + dt * Fy)) ∧
    ode 2 (-1) (3, 4) (1 / 10) = (16 / 5, 39 / 10) := by
  refine ⟨fun _ _ _ _ => rfl, ?_⟩
  unfold ode
  norm_num

/-- The police source field only reads coefficients with index below the
number of police agents, so truncating the coefficient list there leaves
it unchanged. -/
theorem police_f_truncA (e : EvoIn) : police_f (truncA e) = police_f e := by
  show e.police.enum.foldl
      (fun acc ip => gAdd acc (smulG ((e.a.take e.police.length).getD ip.1 0)
        (e.cut_off (gSubS e.xx ip.2.1) (gSubS e.yy ip.2.2))))
      (zerosLike e.xx) =
    police_f e
  unfold police_f
  apply foldl_congr_mem
  intro b ip hip
  have hlt : ip.1 < e.police.length := by
    have := fst_lt_of_mem_enumFrom e.police 0 ip (by simpa [List.enum] using hip)
    simpa using this
  rw [getD_take 0 e.a e.police.length ip.1 hlt]

/-- Truncating the coefficient list to the number of police agents does not
change the outcome of the orchestrator. -/
theorem one_step_truncA (e : EvoIn) :
    one_step_evolution (truncA e) = one_step_evolution e := by
  unfold one_step_evolution
  have hsc : shape_checks (truncA e) = shape_checks e := rfl
  rw [hsc]
  by_cases hb : shape_checks e = true
  · rw [if_pos hb, if_pos hb]
    have hlen : ((truncA e).police.length ≤ (truncA e).a.length) ↔
        (e.police.length ≤ e.a.length) := by
      show (e.police.length ≤ (e.a.take e.police.length).length) ↔ _
      rw [List.length_take]
      omega
    by_cases hl : e.police.length ≤ e.a.length
    · rw [if_pos (hlen.mpr hl), if_pos hl]
      have h1 : pirate_step (truncA e) =
          one_step_parabolic e.p_density e.xx e.yy (pirate_div e)
            (gNeg (police_f (truncA e))) e.dx e.dy e.dt := rfl
      have h2 : ship_step (truncA e) = ship_step e := rfl
      have h3 : police_step (truncA e) = police_step e := rfl
      rw [h1, police_f_truncA, h2, h3]
      rfl
    · rw [if_neg (fun hc => hl (hlen.mp hc)), if_neg hl]
  · rw [if_neg hb, if_neg hb]

/-- C2 counterexample: a call whose coefficient list is strictly longer
than the police list (so the lengths differ) on which the orchestrator
nevertheless returns a result. -/
theorem one_step_returns_with_excess_coefficients :
    eC2.a.length ≠ eC2.police.length ∧
      (one_step_evolution eC2).isSome = true := by
  exact ⟨by decide, by decide⟩

/-- C2 (amended): the orchestrator fails (returns no result) exactly when
the field/mesh shape assertions fail or the coefficient list is strictly
shorter than the police list; a coefficient list longer than the police
list is accepted silently, the surplus entries being ignored (truncating
it to the agent count does not change the outcome). -/
theorem one_step_failure_characterization (e : EvoIn) :
    (one_step_evolution e = none ↔
      shape_checks e = false ∨ e.a.length < e.police.length) ∧
    one_step_evolution (truncA e) = one_step_evolution e := by
  refine ⟨?_, one_step_truncA e⟩
  unfold one_step_evolution
  by_cases hb : shape_checks e = true
  · rw [if_pos hb]
    by_cases hl : e.police.length ≤ e.a.length
    · rw [if_pos hl]
      simp [hb, Nat.not_lt.mpr hl]
    · rw [if_neg hl]
      simp [Nat.lt_of_not_le hl]
  · have hb' : shape_checks e = false := by
      revert hb
      cases shape_checks e <;> simp
    rw [if_neg hb]
    simp [hb']

/-- C3: for every input state, the source term handed to the parabolic
stepper is the negation of the accumulator that starts from the zero field
and adds, per police agent i, the field
a[i] * cutoff(xx - agent_x, yy - agent_y); and whenever all relevant
coefficients are zero the source term vanishes everywhere. -/
theorem pirate_source_accumulator (e : EvoIn) :
    pirate_step e = one_step_parabolic e.p_density e.xx e.yy (pirate_div e)
      (gNeg (police_f_spec e)) e.dx e.dy e.dt ∧
    ((∀ i < e.police.length, e.a.getD i 0 = 0) →
      isZeroGrid (gNeg (police_f e))) := by
  constructor
  · have h : police_f e = police_f_spec e := by
      unfold police_f police_f_spec
      rw [List.foldl_map]
    unfold pirate_step
    rw [h]
  · intro hA
    apply isZero_gNeg
    unfold police_f
    refine isZero_foldl_gAdd _ e.police.enum (zerosLike e.xx)
      (isZero_zerosLike _) ?_
    intro ip hip
    have hlt : ip.1 < e.police.length := by
      have := fst_lt_of_mem_enumFrom e.police 0 ip (by simpa [List.enum] using hip)
      simpa using this
    rw [hA ip.1 hlt]
    exact isZero_smulG_zero _

/-- C3 witness: on a concrete input with two agents and zero coefficients,
the source-term accumulator identity holds and the source is the zero field. -/
theorem pirate_source_accumulator_witness :
    pirate_step eC3 = one_step_parabolic eC3.p_density eC3.xx eC3.yy
      (pirate_div eC3) (gNeg (police_f_spec eC3)) eC3.dx eC3.dy eC3.dt ∧
    isZeroGrid (gNeg (police_f eC3)) :=
  ⟨(pirate_source_accumulator eC3).1,
    (pirate_source_accumulator eC3).2 (by decide)⟩

/-- C4: the velocity field handed to the hyperbolic ship stepper is, per
coordinate, the sum of the convolution contribution (pirate field convolved
with the coordinate-premultiplied cut-off, scaled by -dx*dy), the per-agent
police contribution cutoff(mesh - agent) * (agent - mesh), and the
geometric drift component. -/
theorem ship_velocity_decomposition (e : EvoIn) :
    vel_x e = vel_x_spec e ∧ vel_y e = vel_y_spec e ∧
    ship_step e = one_step_hyperbolic e.s_density e.velocity (vel_x e)
      (vel_y e) e.dx e.dy e.dt := by
  refine ⟨?_, ?_, rfl⟩
  · have h2 : cal_I2_x_spec e = cal_I2_x e := by
      unfold cal_I2_x_spec cal_I2_x
      rw [List.foldl_map]
    unfold vel_x vel_x_spec
    rw [h2, gAdd_assoc]
  · have h2 : cal_I2_y_spec e = cal_I2_y e := by
      unfold cal_I2_y_spec cal_I2_y
      rw [List.foldl_map]
    unfold vel_y vel_y_spec
    rw [h2, gAdd_assoc]

/-- C5: for a single police agent with an all-zero pirate density, the
cohesion force is sum_of_positions - M * position, which vanishes for
M = 1; with the density force and the control force both zero, the agent's
position is returned unchanged by the step. -/
theorem police_cohesion_single_agent (e : EvoIn) (pos : ℚ × ℚ)
    (hp : e.police = [pos]) (hz : isZeroGrid e.p_density)
    (hsc : shape_checks e = true) (hlen : e.police.length ≤ e.a.length) :
    F2_x e pos = police_sum_x e - (e.police.length : ℚ) * pos.1 ∧
    F2_x e pos = 0 ∧ F2_y e pos = 0 ∧
    one_step_evolution e = some (pirate_step e, ship_step e, [pos]) := by
  have hzero_temp : isZeroGrid (police_temp e pos) :=
    isZero_gMul_left _ _ (isZero_gMul_right _ _ hz)
  have hF1x : F1_x e pos = 0 := by
    unfold F1_x
    rw [gSum_isZero _ (isZero_gMul_left _ _ hzero_temp), mul_zero]
  have hF1y : F1_y e pos = 0 := by
    unfold F1_y
    rw [gSum_isZero _ (isZero_gMul_left _ _ hzero_temp), mul_zero]
  have hF2x : F2_x e pos = 0 := by
    unfold F2_x police_sum_x
    rw [hp]
    simp
  have hF2y : F2_y e pos = 0 := by
    unfold F2_y police_sum_y
    rw [hp]
    simp
  refine ⟨rfl, hF2x, hF2y, ?_⟩
  unfold one_step_evolution
  rw [if_pos hsc, if_pos hlen]
  have hps : police_step e = [pos] := by
    unfold police_step
    rw [hp]
    simp only [List.map_cons, List.map_nil]
    rw [hF1x, hF2x, hF1y, hF2y]
    simp [ode]
  rw [hps]

/-- C5 witness: on a concrete single-agent input with a zero pirate field,
the cohesion formula holds, the cohesion force vanishes, and the agent's
position (1, 2) is unchanged by the orchestrator step. -/
theorem police_cohesion_single_agent_witness :
    F2_x eC5 (1, 2) =
      police_sum_x eC5 - (eC5.police.length : ℚ) * ((1 : ℚ), (2 : ℚ)).1 ∧
    F2_x eC5 (1, 2) = 0 ∧ F2_y eC5 (1, 2) = 0 ∧
    one_step_evolution eC5 =
      some (pirate_step eC5, ship_step eC5, [((1 : ℚ), (2 : ℚ))]) :=
  police_cohesion_single_agent eC5 (1, 2) rfl (by decide) (by decide)
    (by decide)

/-- C7: on a valid input (rectangular common shape of the fields and mesh,
shape-preserving configuration callables, coefficient count matching the
agent count) the orchestrator returns a triple whose pirate and ship
fields have the shapes of the corresponding inputs and whose police list
has the input length. -/
theorem one_step_shape_invariance (e : EvoIn) (m n : Nat)
    (hp : shapeOf e.p_density = List.replicate m n)
    (hs : shapeOf e.s_density = shapeOf e.p_density)
    (hx : shapeOf e.xx = shapeOf e.p_density)
    (hy : shapeOf e.yy = shapeOf e.p_density)
    (hkappa : ∀ g, shapeOf (e.kappa g) = shapeOf g)
    (hcut : ∀ g h, shapeOf (e.cut_off g h) = shapeOf g)
    (ha : e.a.length = e.police.length) :
    one_step_evolution e = some (pirate_step e, ship_step e, police_step e) ∧
    shapeOf (pirate_step e) = shapeOf e.p_density ∧
    shapeOf (ship_step e) = shapeOf e.s_density ∧
    (police_step e).length = e.police.length := by
  have hconv : shapeOf (p_convolution e) = List.replicate m n := by
    unfold p_convolution
    rw [shapeOf_smulG]
    exact shapeOf_convolve2dSame _ _ m n (hs.trans hp)
  have hgpx : shapeOf (pirate_grads e).2 = List.replicate m n := by
    show shapeOf (gradAxis1 e.dx (p_convolution e)) = _
    rw [shapeOf_gradAxis1, hconv]
  have hgpy : shapeOf (pirate_grads e).1 = List.replicate m n := by
    show shapeOf (gradAxis0 e.dy (p_convolution e)) = _
    rw [shapeOf_gradAxis0, hconv]
  have hmul1 : shapeOf (gMul (pirate_grads e).2 (pirate_grads e).2) =
      List.replicate m n := by
    rw [shapeOf_gMul _ _ rfl, hgpx]
  have hmul2 : shapeOf (gMul (pirate_grads e).1 (pirate_grads e).1) =
      List.replicate m n := by
    rw [shapeOf_gMul _ _ rfl, hgpy]
  have hnorm : shapeOf (norm_grad_p_convolution e) = List.replicate m n := by
    unfold norm_grad_p_convolution
    rw [shapeOf_gMap, shapeOf_gAdd _ _ (hmul1.trans hmul2.symm), hmul1]
  have hknorm : shapeOf (e.kappa (norm_grad_p_convolution e)) =
      List.replicate m n := by
    rw [hkappa, hnorm]
  have hinx : shapeOf (gMul (e.kappa (norm_grad_p_convolution e))
      (pirate_grads e).2) = List.replicate m n := by
    rw [shapeOf_gMul _ _ (hknorm.trans hgpx.symm), hknorm]
  have hiny : shapeOf (gMul (e.kappa (norm_grad_p_convolution e))
      (pirate_grads e).1) = List.replicate m n := by
    rw [shapeOf_gMul _ _ (hknorm.trans hgpy.symm), hknorm]
  have hfx : shapeOf (flux_x e) = List.replicate m n := by
    unfold flux_x
    rw [shapeOf_gMul _ _ (hinx.trans hp.symm), hinx]
  have hfy : shapeOf (flux_y e) = List.replicate m n := by
    unfold flux_y
    rw [shapeOf_gMul _ _ (hiny.trans hp.symm), hiny]
  have hd1 : shapeOf (gradAxis1 e.dx (flux_x e)) = List.replicate m n := by
    rw [shapeOf_gradAxis1, hfx]
  have hd2 : shapeOf (gradAxis0 e.dy (flux_y e)) = List.replicate m n := by
    rw [shapeOf_gradAxis0, hfy]
  have hdiv : shapeOf (pirate_div e) = List.replicate m n := by
    show shapeOf (gSub (gNeg (gradAxis1 e.dx (flux_x e)))
      (gradAxis0 e.dy (flux_y e))) = _
    rw [shapeOf_gSub _ _ (by rw [shapeOf_gNeg, hd1, hd2]), shapeOf_gNeg, hd1]
  have hf : shapeOf (police_f e) = List.replicate m n := by
    unfold police_f
    refine shapeOf_foldl_gAdd _ (List.replicate m n) e.police.enum
      (zerosLike e.xx) ?_ ?_
    · rw [shapeOf_zerosLike, hx, hp]
    · intro ip _
      rw [shapeOf_smulG, hcut, shapeOf_gSubS, hx, hp]
  have hinner : shapeOf (gAdd (pirate_div e) (gNeg (police_f e))) =
      List.replicate m n := by
    rw [shapeOf_gAdd _ _ (by rw [shapeOf_gNeg, hdiv, hf]), hdiv]
  have hpir : shapeOf (pirate_step e) = shapeOf e.p_density := by
    have hsm : shapeOf (smulG e.dt (gAdd (pirate_div e) (gNeg (police_f e)))) =
        List.replicate m n := by
      rw [shapeOf_smulG]
      exact hinner
    show shapeOf (gAdd e.p_density
      (smulG e.dt (gAdd (pirate_div e) (gNeg (police_f e))))) = shapeOf e.p_density
    exact shapeOf_gAdd _ _ (hp.trans hsm.symm)
  have hship : shapeOf (ship_step e) = shapeOf e.s_density :=
    shapeOf_one_step_hyperbolic _ _ _ _ _ _ _
  have hpol : (police_step e).length = e.police.length := by
    unfold police_step
    rw [List.length_map]
  have hchecks : shape_checks e = true := by
    simp [shape_checks, hs, hx, hy]
  have hguard : e.police.length ≤ e.a.length := ha.symm.le
  refine ⟨?_, hpir, hship, hpol⟩
  unfold one_step_evolution
  rw [if_pos hchecks, if_pos hguard]

/-- C7 witness: on a concrete valid 2×2 input the orchestrator returns a
triple with the input shapes and the input agent count. -/
theorem one_step_shape_invariance_witness :
    one_step_evolution eC7 =
      some (pirate_step eC7, ship_step eC7, police_step eC7) ∧
    shapeOf (pirate_step eC7) = shapeOf eC7.p_density ∧
    shapeOf (ship_step eC7) = shapeOf eC7.s_density ∧
    (police_step eC7).length = eC7.police.length :=
  one_step_shape_invariance eC7 2 2 rfl rfl rfl rfl (fun _ => rfl)
    (fun _ _ => rfl) rfl

/-- Value of the new pirate field on the concrete 1×1 input. -/
theorem pirate_step_eC8 : pirate_step eC8 = [[-3]] := by
  norm_num [pirate_step, one_step_parabolic, pirate_div, police_f, flux_x,
    flux_y, norm_grad_p_convolution, pirate_grads, p_convolution,
    convolve2dSame, gridOfFn, convFullAt, cellZ, getCell, numCols,
    numpyGradient, grad1, gradAxis0, gradAxis1, gMap, gZip, gAdd, gSub,
    gMul, gNeg, smulG, zerosLike, exCut, exKappa, exSqrt, eC8,
    List.range_succ, List.enum]

/-- Value of the ship velocity read from the pre-step pirate field. -/
theorem vel_x_eC8 : vel_x eC8 = [[-1]] := by
  norm_num [vel_x, cal_I1_x, cal_I2_x, convolve2dSame, gridOfFn, convFullAt,
    cellZ, getCell, numCols, gMap, gZip, gAdd, gMul, smulG, sSubG, gSubS,
    zerosLike, exCut, eC8, List.range_succ]

/-- Value of the ship velocity were it read from the new pirate field. -/
theorem vel_x_eC8_new : vel_x (withP eC8 (pirate_step eC8)) = [[3]] := by
  rw [pirate_step_eC8]
  norm_num [vel_x, cal_I1_x, cal_I2_x, convolve2dSame, gridOfFn, convFullAt,
    cellZ, getCell, numCols, gMap, gZip, gAdd, gMul, smulG, sSubG, gSubS,
    zerosLike, exCut, eC8, withP, List.range_succ]

/-- C8: the orchestrator is a pure function of the pre-step state: its
outcome decomposes into three components, each computed by a standalone
function of the input record only — in particular the ship field is
updated from the pre-step pirate density, not from the freshly computed
one, and the police forces read the pre-step position list.  The final
conjunct shows the distinction is not vacuous: feeding the ship-velocity
coupling term the new pirate field instead of the old one changes it on a
concrete input. -/
theorem one_step_pure_decomposition (e : EvoIn) :
    one_step_evolution e =
      (if shape_checks e then
        if e.police.length ≤ e.a.length then
          some (pirate_step e, ship_step e, police_step e)
        else none
      else none) ∧
    ship_step e = one_step_hyperbolic e.s_density e.velocity (vel_x e)
      (vel_y e) e.dx e.dy e.dt ∧
    police_step e = e.police.map (fun pos =>
      ode (F1_x e pos + F2_x e pos + 0) (F1_y e pos + F2_y e pos + 0)
        pos e.dt) ∧
    vel_x eC8 ≠ vel_x (withP eC8 (pirate_step eC8)) :=
  ⟨rfl, rfl, rfl, by rw [vel_x_eC8, vel_x_eC8_new]; decide⟩

/-- Invariant of the driver loop: a completed fold over the index list has
performed one evolution step per index and has emitted one snapshot per
index whose printing flag is set. -/
theorem evo_foldl_some (pir : Pirates) :
    ∀ (l : List Nat) (acc : Option LoopState) (st2 : LoopState),
      List.foldl (evoStep pir) acc l = some st2 →
      ∃ st0, acc = some st0 ∧
        st2.steps = st0.steps + l.length ∧
        st2.saves.length = st0.saves.length +
          (l.filter (fun i => pir.printing.getD i false)).length := by
  intro l
  induction l with
  | nil =>
      intro acc st2 h
      exact ⟨st2, by simpa using h, by simp, by simp⟩
  | cons i l ih =>
      intro acc st2 h
      simp only [List.foldl_cons] at h
      obtain ⟨st1, h1, hsteps, hsaves⟩ := ih (evoStep pir acc i) st2 h
      unfold evoStep at h1
      obtain ⟨st0, hacc, h0⟩ := Option.bind_eq_some.mp h1
      obtain ⟨newSt, _, hst1⟩ := Option.map_eq_some'.mp h0
      refine ⟨st0, hacc, ?_, ?_⟩
      · have hstep1 : st1.steps = st0.steps + 1 := by
          rw [← hst1]
          by_cases hpr : pir.printing.getD i false = true
          · rw [if_pos hpr]
          · rw [if_neg hpr]
        simp only [List.length_cons]
        omega
      · by_cases hpr : pir.printing.getD i false = true
        · have hsv : st1.saves.length = st0.saves.length + 1 := by
            rw [← hst1, if_pos hpr]
            rfl
          rw [hsaves, hsv, List.filter_cons, if_pos hpr]
          simp only [List.length_cons]
          omega
        · have hsv : st1.saves.length = st0.saves.length := by
            rw [← hst1, if_neg hpr]
          rw [hsaves, hsv, List.filter_cons, if_neg hpr]

/-- C9: whenever the driver evolution() completes, its Python return value
is None — the final state triple is computed but not returned — while it
has performed len(time) - 1 one-step evolutions and has emitted one
snapshot per time index whose printing flag is set. -/
theorem evolution_returns_none (pir : Pirates) (r : EvolutionRun)
    (h : evolution pir = some r) :
    r.retVal = none ∧ r.steps = pir.time.length - 1 ∧
    r.saves.length = ((List.range' 1 (pir.time.length - 1)).filter
      (fun i => pir.printing.getD i false)).length := by
  unfold evolution at h
  obtain ⟨st, hst, hr⟩ := Option.map_eq_some'.mp h
  obtain ⟨st0, hacc, hsteps, hsaves⟩ := evo_foldl_some pir _ _ _ hst
  obtain rfl := Option.some.inj hacc
  subst hr
  refine ⟨rfl, ?_, ?_⟩
  · simpa [List.length_range'] using hsteps
  · simpa [List.length_reverse] using hsaves

/-- C9 witness: on a concrete simulation object with a one-instant time
schedule, evolution() succeeds with return value None, zero steps and no
snapshots. -/
theorem evolution_returns_none_witness :
    run9.retVal = none ∧ run9.steps = pir9.time.length - 1 ∧
    run9.saves.length = ((List.range' 1 (pir9.time.length - 1)).filter
      (fun i => pir9.printing.getD i false)).length :=
  evolution_returns_none pir9 run9 rfl

/-- Value of the raw cut-off field on the concrete 2×2 unit-spacing mesh:
only the origin lies inside radius 0.4. -/
theorem cut_off_k_X10 : cut_off_k X10 Y10 (2 / 5) = [[4 / 25, 0], [0, 0]] := by
  norm_num [cut_off_k, X10, Y10, gZip]

/-- Value of the normalization constant on the concrete 2×2 unit-spacing
mesh: 4/25, which is below the 0.3 threshold. -/
theorem cut_off_norm_X10 : cut_off_norm X10 Y10 (2 / 5) = 4 / 25 := by
  unfold cut_off_norm
  rw [cut_off_k_X10]
  norm_num [gSum, getCell, X10, Y10]

/-- C10: cut_off_C is only conditionally normalized — it returns the raw
field k when the constant C = sum(k) * dx * dy is below 0.3 and the
normalized field k/C only when C ≥ 0.3; consequently, on a concrete 2×2
unit-spacing mesh its discrete total mass differs from 1. -/
theorem cut_off_C_conditional_normalization :
    (∀ (x y : Grid) (r : ℚ), cut_off_norm x y r < 3 / 10 →
      cut_off_C x y r = cut_off_k x y r) ∧
    (∀ (x y : Grid) (r : ℚ), 3 / 10 ≤ cut_off_norm x y r →
      cut_off_C x y r =
        gMap (fun q => q / cut_off_norm x y r) (cut_off_k x y r)) ∧
    gSum (cut_off_C X10 Y10 (2 / 5)) * (getCell X10 0 1 - getCell X10 0 0) *
      (getCell Y10 1 0 - getCell Y10 0 0) ≠ 1 := by
  refine ⟨?_, ?_, ?_⟩
  · intro x y r h
    unfold cut_off_C
    rw [if_pos h]
  · intro x y r h
    unfold cut_off_C
    rw [if_neg (not_lt.mpr h)]
  · have hbr : cut_off_C X10 Y10 (2 / 5) = cut_off_k X10 Y10 (2 / 5) := by
      unfold cut_off_C
      rw [if_pos (by rw [cut_off_norm_X10]; norm_num)]
    rw [hbr, cut_off_k_X10]
    norm_num [gSum, getCell, X10, Y10]

/-- C10 witness: the concrete 2×2 unit-spacing mesh falls in the C < 0.3
branch, so the unnormalized field is returned. -/
theorem cut_off_C_conditional_normalization_witness :
    cut_off_C X10 Y10 (2 / 5) = cut_off_k X10 Y10 (2 / 5) :=
  cut_off_C_conditional_normalization.1 X10 Y10 (2 / 5)
    (by rw [cut_off_norm_X10]; norm_num)

end Pirati
